import Mathlib

/-!
Shallow embedding of the analytical core of the multi-market live monitor
(`src/client/src/lib/chanlunEngine.ts`, `src/client/src/lib/indicators.ts`
and the signal engine sharing that file, plus `types.ts`).

Conventions of the embedding:
* JavaScript numbers are modelled as rationals (`ℚ`); array entries that the
  source leaves as `NaN` (undefined indicator positions) are modelled as
  `none : Option ℚ`.
* `nanoid()` is modelled by an injected id supply `gen : Nat → String`,
  consumed left to right, one index per `nanoid()` call.
* `Date.now()` is modelled as an explicit wall-clock parameter (`Int`,
  milliseconds since the epoch).
* In-place mutation of the tail element of a growing array (containment
  merging, zhongshu extension) is modelled by recursion over an accumulator
  kept in reverse order, whose head is the mutable tail of the source array.
-/

/-- Source `types.ts`: `OHLCBar`.  The source field `open` is called
`openP` here because `open` is a reserved word in Lean. -/
structure OHLCBar where
  time : Int
  openP : ℚ
  high : ℚ
  low : ℚ
  close : ℚ
  volume : Option ℚ := none
deriving DecidableEq, Repr

/-- Source `chanlunEngine.ts`: `ProcessedBar` (bar after containment
reduction). -/
structure ProcessedBar where
  originalIndex : Nat
  time : Int
  high : ℚ
  low : ℚ
  close : ℚ
deriving DecidableEq, Repr

/-- Merge of the current raw bar into the processed tail bar, source
`processContainment` lines 74-84: uptrend takes max high / max low,
downtrend takes min high / min low; `close` and `originalIndex` always
follow the raw bar (the source does not update `time`). -/
def mergeBars (isUp : Bool) (prev : ProcessedBar) (i : Nat) (cur : OHLCBar) : ProcessedBar :=
  if isUp then
    { prev with high := max prev.high cur.high, low := max prev.low cur.low,
                close := cur.close, originalIndex := i }
  else
    { prev with high := min prev.high cur.high, low := min prev.low cur.low,
                close := cur.close, originalIndex := i }

/-- One iteration of the `processContainment` loop.  `acc` is the processed
array in reverse order (head = the array's mutable tail).  The trend test
`isUpTrend` defaults to true when only one processed bar exists.  The `[]`
case is unreachable: the accumulator starts non-empty and never shrinks. -/
def pcStep (i : Nat) (cur : OHLCBar) (acc : List ProcessedBar) : List ProcessedBar :=
  match acc with
  | [] => [⟨i, cur.time, cur.high, cur.low, cur.close⟩]
  | prev :: rest =>
    if (cur.high ≥ prev.high ∧ cur.low ≤ prev.low) ∨ (prev.high ≥ cur.high ∧ prev.low ≤ cur.low) then
      (match rest with
       | [] => mergeBars true prev i cur
       | pp :: _ => if prev.high > pp.high then mergeBars true prev i cur
                    else mergeBars false prev i cur) :: rest
    else
      ⟨i, cur.time, cur.high, cur.low, cur.close⟩ :: prev :: rest

/-- Loop of `processContainment` over the raw bars from index 1 on. -/
def processContainmentAux : Nat → List OHLCBar → List ProcessedBar → List ProcessedBar
  | _, [], acc => acc
  | i, cur :: rest, acc => processContainmentAux (i + 1) rest (pcStep i cur acc)

/-- Source `chanlunEngine.ts` lines 52-97: containment reduction. -/
def processContainment (bars : List OHLCBar) : List ProcessedBar :=
  match bars with
  | [] => []
  | b0 :: rest =>
      (processContainmentAux 1 rest [⟨0, b0.time, b0.high, b0.low, b0.close⟩]).reverse

/-- Containment relation used by the source (non-strict comparisons):
`a` contains `b` when `a.high ≥ b.high ∧ a.low ≤ b.low`. -/
def containsBar (a b : ProcessedBar) : Prop :=
  a.high ≥ b.high ∧ a.low ≤ b.low

instance (a b : ProcessedBar) : Decidable (containsBar a b) := by
  unfold containsBar; infer_instance

/-- Strict separation of two processed bars: highs and lows are strictly
on the same side.  This is the invariant the containment loop maintains
between adjacent processed bars. -/
def StrictSep (a b : ProcessedBar) : Prop :=
  (a.high < b.high ∧ a.low < b.low) ∨ (b.high < a.high ∧ b.low < a.low)

theorem pcStep_sep (i : Nat) (cur : OHLCBar) (acc : List ProcessedBar)
    (h : List.Chain' StrictSep acc) : List.Chain' StrictSep (pcStep i cur acc) := by
  match acc with
  | [] => simp [pcStep]
  | prev :: rest =>
    by_cases hc : (cur.high ≥ prev.high ∧ cur.low ≤ prev.low) ∨ (prev.high ≥ cur.high ∧ prev.low ≤ cur.low)
    · simp only [pcStep, if_pos hc]
      match rest with
      | [] => exact List.chain'_singleton _
      | pp :: t =>
        rw [List.chain'_cons] at h ⊢
        obtain ⟨hsep, htail⟩ := h
        unfold StrictSep at hsep
        refine ⟨?_, htail⟩
        show StrictSep (if prev.high > pp.high then mergeBars true prev i cur
                        else mergeBars false prev i cur) pp
        by_cases hup : prev.high > pp.high
        · rw [if_pos hup]
          rcases hsep with ⟨h1, h2⟩ | ⟨h1, h2⟩
          · exact absurd hup (not_lt.mpr (le_of_lt h1))
          · exact Or.inr ⟨lt_of_lt_of_le h1 (le_max_left _ _),
              lt_of_lt_of_le h2 (le_max_left _ _)⟩
        · rw [if_neg hup]
          rcases hsep with ⟨h1, h2⟩ | ⟨h1, h2⟩
          · exact Or.inl ⟨lt_of_le_of_lt (min_le_left _ _) h1,
              lt_of_le_of_lt (min_le_left _ _) h2⟩
          · exact absurd h1 hup
    · simp only [pcStep, if_neg hc]
      rw [List.chain'_cons]
      refine ⟨?_, h⟩
      rw [not_or, not_and_or, not_and_or] at hc
      obtain ⟨hA, hB⟩ := hc
      rw [not_le, not_le] at hA
      rw [not_le, not_le] at hB
      rcases hA with h1 | h1 <;> rcases hB with h2 | h2
      · exact absurd h2 (not_lt.mpr (le_of_lt h1))
      · exact Or.inl ⟨h1, h2⟩
      · exact Or.inr ⟨h2, h1⟩
      · exact absurd h2 (not_lt.mpr (le_of_lt h1))

theorem processContainmentAux_sep (bars : List OHLCBar) :
    ∀ (i : Nat) (acc : List ProcessedBar), List.Chain' StrictSep acc →
      List.Chain' StrictSep (processContainmentAux i bars acc) := by
  induction bars with
  | nil => intro i acc h; exact h
  | cons cur rest ih =>
      intro i acc h
      exact ih (i + 1) (pcStep i cur acc) (pcStep_sep i cur acc h)

/-- C1: for every input bar sequence, the output of containment reduction
contains no adjacent pair of processed bars where either bar's [low, high]
interval contains the other's (containment taken with the source's
non-strict comparisons), despite merges mutating the tail bar in place. -/
theorem C1_no_adjacent_containment (bars : List OHLCBar) :
    List.Chain' (fun a b => ¬ containsBar a b ∧ ¬ containsBar b a)
      (processContainment bars) := by
  match bars with
  | [] => simp [processContainment]
  | b0 :: rest =>
    have hsep : List.Chain' StrictSep
        (processContainmentAux 1 rest [⟨0, b0.time, b0.high, b0.low, b0.close⟩]) :=
      processContainmentAux_sep rest 1 _ (List.chain'_singleton _)
    show List.Chain' _ (List.reverse _)
    rw [List.chain'_reverse]
    refine hsep.imp ?_
    intro a b hab
    unfold StrictSep at hab
    show ¬ containsBar b a ∧ ¬ containsBar a b
    unfold containsBar
    constructor
    · intro hcon
      obtain ⟨hh, hl⟩ := hcon
      rcases hab with ⟨h1, h2⟩ | ⟨h1, h2⟩
      · linarith
      · linarith
    · intro hcon
      obtain ⟨hh, hl⟩ := hcon
      rcases hab with ⟨h1, h2⟩ | ⟨h1, h2⟩
      · linarith
      · linarith

/-- Source `types.ts`: `MarketType`. -/
inductive MarketType where
  | fx | cn | hk | us | crypto | commodities
deriving DecidableEq, Repr

/-- Source `types.ts`: `Timeframe` (`1D`, `4H`, `15m`, `1H`, `5m`; renamed
because Lean names cannot start with a digit). -/
inductive Timeframe where
  | D1 | H4 | m15 | H1 | m5
deriving DecidableEq, Repr

/-- Source `types.ts`: `FractalType`. -/
inductive FractalType where
  | top | bottom
deriving DecidableEq, Repr

/-- Source `types.ts`: `Fractal`. -/
structure Fractal where
  index : Nat
  time : Int
  price : ℚ
  type : FractalType
deriving DecidableEq, Repr

/-- Source `types.ts`: `BiDirection`. -/
inductive BiDirection where
  | up | down
deriving DecidableEq, Repr

/-- Source `types.ts`: `Bi`.  `kbarCount` is an `Int`, as the source value
`end.index - start.index` can be negative for adversarial fractal input. -/
structure Bi where
  id : Nat
  direction : BiDirection
  startFractal : Fractal
  endFractal : Fractal
  kbarCount : Int
deriving DecidableEq, Repr

/-- Source `types.ts`: `Zhongshu`. -/
structure Zhongshu where
  id : Nat
  high : ℚ
  low : ℚ
  startTime : Int
  endTime : Int
  biIds : List Nat
  isActive : Bool
deriving DecidableEq, Repr

/-- Source `types.ts`: `ThirdBuyStatus`. -/
inductive ThirdBuyStatus where
  | candidate | confirmed | invalid
deriving DecidableEq, Repr

/-- Source `chanlunEngine.ts`: the `confirmRule` field of `ChanlunParams`. -/
inductive ConfirmRule where
  | new_high | break_pullback_high
deriving DecidableEq, Repr

/-- Source `chanlunEngine.ts` lines 23-29: `ChanlunParams`. -/
structure ChanlunParams where
  minBiKbars : Nat
  minBiMoveAtr : ℚ
  breakoutAtr : ℚ
  pullbackToleranceAtr : ℚ
  confirmRule : ConfirmRule
deriving DecidableEq, Repr

/-- Source `chanlunEngine.ts` lines 31-38: `DEFAULT_PARAMS`. -/
def DEFAULT_PARAMS : MarketType → ChanlunParams
  | MarketType.crypto =>
      { minBiKbars := 4, minBiMoveAtr := 4/5, breakoutAtr := 2/5,
        pullbackToleranceAtr := 2/5, confirmRule := ConfirmRule.break_pullback_high }
  | _ =>
      { minBiKbars := 5, minBiMoveAtr := 1, breakoutAtr := 1/2,
        pullbackToleranceAtr := 3/10, confirmRule := ConfirmRule.break_pullback_high }

/-- Fractal test at interior position `i` of the processed list, source
`detectFractals` loop body (lines 105-115). -/
def fractalAt (processed : List ProcessedBar) (i : Nat) : Option Fractal :=
  match processed.get? (i - 1), processed.get? i, processed.get? (i + 1) with
  | some prev, some cur, some next =>
      if cur.high > prev.high ∧ cur.high > next.high then
        some ⟨i, cur.time, cur.high, FractalType.top⟩
      else if cur.low < prev.low ∧ cur.low < next.low then
        some ⟨i, cur.time, cur.low, FractalType.bottom⟩
      else none
  | _, _, _ => none

/-- Source `chanlunEngine.ts` lines 103-117: fractal detection over interior
indices `1 ≤ i ≤ length - 2`. -/
def detectFractals (processed : List ProcessedBar) : List Fractal :=
  ((List.range processed.length).drop 1).filterMap (fractalAt processed)

/-- One iteration of the alternating-fractal filter (source `formBis`
lines 136-149); `acc` is the filtered list in reverse order. -/
def faStep (acc : List Fractal) (cur : Fractal) : List Fractal :=
  match acc with
  | [] => [cur]
  | last :: rest =>
    if cur.type ≠ last.type then cur :: last :: rest
    else if cur.type = FractalType.top ∧ cur.price > last.price then cur :: rest
    else if cur.type = FractalType.bottom ∧ cur.price < last.price then cur :: rest
    else last :: rest

/-- Alternating top/bottom filter of source `formBis` lines 134-149. -/
def filterAlternating (fractals : List Fractal) : List Fractal :=
  match fractals with
  | [] => []
  | f0 :: rest => (rest.foldl faStep [f0]).reverse

/-- Source `chanlunEngine.ts` lines 178-188: `getAvgATR`, averaging the
non-NaN ATR entries over index range `[startIdx, endIdx]` (0 when none). -/
def getAvgATR (atrValues : List (Option ℚ)) (startIdx endIdx : Nat) : ℚ :=
  let vals := ((List.range atrValues.length).filter
      (fun j => startIdx ≤ j ∧ j ≤ endIdx)).filterMap (fun j => (atrValues.get? j).join)
  if vals.length = 0 then 0 else vals.sum / vals.length

/-- Threshold checks of the `formBis` loop (lines 155-162): minimum K-bar
count, then minimum ATR-scaled move (skipped when the average ATR is 0). -/
def biPasses (atrValues : List (Option ℚ)) (params : ChanlunParams)
    (s e : Fractal) : Bool :=
  let kbarCount : Int := (e.index : Int) - (s.index : Int)
  if kbarCount < (params.minBiKbars : Int) then false
  else
    let avgAtr := getAvgATR atrValues s.index e.index
    let move := |e.price - s.price|
    if avgAtr > 0 ∧ move < params.minBiMoveAtr * avgAtr then false else true

/-- Bi construction of `formBis` lines 164-172: direction is `up` iff the
start fractal is a bottom. -/
def mkBi (id : Nat) (s e : Fractal) : Bi :=
  { id := id,
    direction := if s.type = FractalType.bottom then BiDirection.up else BiDirection.down,
    startFractal := s, endFractal := e,
    kbarCount := (e.index : Int) - (s.index : Int) }

/-- Dense id assignment in emission order (`biId++` of the source). -/
def assignIds : Nat → List (Fractal × Fractal) → List Bi
  | _, [] => []
  | n, p :: rest => mkBi n p.1 p.2 :: assignIds (n + 1) rest

/-- Source `chanlunEngine.ts` lines 123-176: `formBis`.  (The `processed`
parameter is unused, as in the source.) -/
def formBis (fractals : List Fractal) (processed : List ProcessedBar)
    (atrValues : List (Option ℚ)) (params : ChanlunParams) : List Bi :=
  if fractals.length < 2 then []
  else
    let filtered := filterAlternating fractals
    let kept := (filtered.zip filtered.tail).filter (fun p => biPasses atrValues params p.1 p.2)
    assignIds 0 kept

theorem faStep_alt (acc : List Fractal) (cur : Fractal)
    (h : List.Chain' (fun a b => a.type ≠ b.type) acc) :
    List.Chain' (fun a b => a.type ≠ b.type) (faStep acc cur) := by
  match acc with
  | [] => simp [faStep]
  | last :: rest =>
    by_cases hne : cur.type ≠ last.type
    · simp only [faStep, if_pos hne]
      rw [List.chain'_cons]
      exact ⟨hne, h⟩
    · simp only [faStep, if_neg hne]
      push_neg at hne
      by_cases h2 : cur.type = FractalType.top ∧ cur.price > last.price
      · rw [if_pos h2]
        match rest with
        | [] => exact List.chain'_singleton _
        | pp :: t =>
          rw [List.chain'_cons] at h ⊢
          exact ⟨by rw [hne]; exact h.1, h.2⟩
      · rw [if_neg h2]
        by_cases h3 : cur.type = FractalType.bottom ∧ cur.price < last.price
        · rw [if_pos h3]
          match rest with
          | [] => exact List.chain'_singleton _
          | pp :: t =>
            rw [List.chain'_cons] at h ⊢
            exact ⟨by rw [hne]; exact h.1, h.2⟩
        · rw [if_neg h3]; exact h

theorem foldl_faStep_alt (rest : List Fractal) :
    ∀ acc, List.Chain' (fun a b => a.type ≠ b.type) acc →
      List.Chain' (fun a b => a.type ≠ b.type) (rest.foldl faStep acc) := by
  induction rest with
  | nil => intro acc h; exact h
  | cons cur t ih => intro acc h; exact ih _ (faStep_alt acc cur h)

theorem filterAlternating_alt (fractals : List Fractal) :
    List.Chain' (fun a b => a.type ≠ b.type) (filterAlternating fractals) := by
  match fractals with
  | [] => simp [filterAlternating]
  | f0 :: rest =>
    have h := foldl_faStep_alt rest [f0] (List.chain'_singleton _)
    show List.Chain' _ (List.reverse _)
    rw [List.chain'_reverse]
    exact h.imp (fun a b hab => Ne.symm hab)

theorem chain'_zip_tail {α : Type} {R : α → α → Prop} :
    ∀ {l : List α}, List.Chain' R l → ∀ p ∈ l.zip l.tail, R p.1 p.2 := by
  intro l
  induction l with
  | nil => intro _ p hp; simp at hp
  | cons a t ih =>
    cases t with
    | nil => intro _ p hp; simp at hp
    | cons b t2 =>
      intro h p hp
      rw [List.chain'_cons] at h
      simp only [List.tail_cons, List.zip_cons_cons, List.mem_cons] at hp
      rcases hp with rfl | hp
      · exact h.1
      · exact ih h.2 p hp

theorem mem_assignIds : ∀ (n : Nat) (l : List (Fractal × Fractal)) (b : Bi),
    b ∈ assignIds n l → ∃ p ∈ l, ∃ m, b = mkBi m p.1 p.2 := by
  intro n l
  induction l generalizing n with
  | nil => intro b hb; simp [assignIds] at hb
  | cons p rest ih =>
    intro b hb
    simp only [assignIds, List.mem_cons] at hb
    rcases hb with rfl | hb
    · exact ⟨p, List.mem_cons_self _ _, n, rfl⟩
    · obtain ⟨q, hq, m, hm⟩ := ih (n + 1) b hb
      exact ⟨q, List.mem_cons_of_mem _ hq, m, hm⟩

theorem chain'_of_forall_mem {α : Type} {P : α → Prop} {R : α → α → Prop}
    (hR : ∀ a b, P a → P b → R a b) :
    ∀ (l : List α), (∀ x ∈ l, P x) → List.Chain' R l := by
  intro l
  induction l with
  | nil => intro _; exact List.chain'_nil
  | cons a t ih =>
    intro hl
    cases t with
    | nil => exact List.chain'_singleton _
    | cons b t2 =>
      rw [List.chain'_cons]
      refine ⟨hR a b (hl a (by simp)) (hl b (by simp)), ?_⟩
      exact ih (fun x hx => hl x (List.mem_cons_of_mem _ hx))

theorem formBis_mem_prop (fractals : List Fractal) (processed : List ProcessedBar)
    (atrValues : List (Option ℚ)) (params : ChanlunParams) :
    ∀ b ∈ formBis fractals processed atrValues params,
      b.startFractal.type ≠ b.endFractal.type ∧
      b.direction = (if b.startFractal.type = FractalType.bottom then BiDirection.up
                     else BiDirection.down) := by
  intro b hb
  unfold formBis at hb
  by_cases hlen : fractals.length < 2
  · rw [if_pos hlen] at hb; simp at hb
  · rw [if_neg hlen] at hb
    obtain ⟨p, hp, m, rfl⟩ := mem_assignIds 0 _ b hb
    have hz : p ∈ (filterAlternating fractals).zip (filterAlternating fractals).tail :=
      List.mem_of_mem_filter hp
    have halt := chain'_zip_tail (filterAlternating_alt fractals) p hz
    exact ⟨halt, rfl⟩

/-- C5 (amended): in the bi list produced by `formBis`, any two consecutive
bis that share a fractal (the second starts where the first ends) have
different directions.  Unconditional alternation fails because a
threshold-rejected middle pair can leave two same-direction bis adjacent. -/
theorem C5_amended_alternation (fractals : List Fractal) (processed : List ProcessedBar)
    (atrValues : List (Option ℚ)) (params : ChanlunParams) :
    List.Chain' (fun b1 b2 => b1.endFractal = b2.startFractal → b1.direction ≠ b2.direction)
      (formBis fractals processed atrValues params) := by
  apply chain'_of_forall_mem
      (P := fun b => b.startFractal.type ≠ b.endFractal.type ∧
        b.direction = (if b.startFractal.type = FractalType.bottom then BiDirection.up
                       else BiDirection.down))
  · intro a b hpa hpb heq
    obtain ⟨ha1, ha2⟩ := hpa
    obtain ⟨hb1, hb2⟩ := hpb
    rw [ha2, hb2, ← heq]
    revert ha1
    cases a.startFractal.type <;> cases a.endFractal.type <;> simp
  · exact formBis_mem_prop fractals processed atrValues params

/-- Fractal list for the C5 counterexample: four alternating fractals whose
middle pair spans only 2 processed bars. -/
def frC5 : List Fractal :=
  [⟨0, 0, 0, FractalType.bottom⟩, ⟨5, 5, 10, FractalType.top⟩,
   ⟨7, 7, 5, FractalType.bottom⟩, ⟨12, 12, 15, FractalType.top⟩]

/-- Default (non-crypto) parameter set, used by the concrete inputs. -/
def paramsC5 : ChanlunParams :=
  { minBiKbars := 5, minBiMoveAtr := 1, breakoutAtr := 1/2,
    pullbackToleranceAtr := 3/10, confirmRule := ConfirmRule.break_pullback_high }

/-- C5 counterexample: with `minBiKbars = 5`, the middle fractal pair
(2 K-bars) is rejected, so `formBis` emits two consecutive `up` bis —
directions do not strictly alternate. -/
theorem C5_counterexample :
    (formBis frC5 [] [] paramsC5).map Bi.direction = [BiDirection.up, BiDirection.up] ∧
    ¬ List.Chain' (fun b1 b2 : Bi => b1.direction ≠ b2.direction)
        (formBis frC5 [] [] paramsC5) := by
  constructor
  · decide
  · have h : formBis frC5 [] [] paramsC5 =
        [mkBi 0 ⟨0, 0, 0, FractalType.bottom⟩ ⟨5, 5, 10, FractalType.top⟩,
         mkBi 1 ⟨7, 7, 5, FractalType.bottom⟩ ⟨12, 12, 15, FractalType.top⟩] := by decide
    rw [h]
    simp [List.chain'_cons, mkBi]

/-- Witness instantiating the amended C5 theorem at a concrete input. -/
theorem C5_amended_witness :
    List.Chain' (fun b1 b2 => b1.endFractal = b2.startFractal → b1.direction ≠ b2.direction)
      (formBis frC5 [] [] paramsC5) :=
  C5_amended_alternation frC5 [] [] paramsC5

/-- Source `chanlunEngine.ts` lines 241-246: `getBiRange`, as the pair
(high, low) of the bi's fractal prices. -/
def getBiRange (bi : Bi) : ℚ × ℚ :=
  (max bi.startFractal.price bi.endFractal.price,
   min bi.startFractal.price bi.endFractal.price)

/-- Extension of an active zhongshu by a later bi, source `detectZhongshu`
lines 221-222: only `endTime` and `biIds` are written. -/
def extendZhongshu (z : Zhongshu) (b3 : Bi) : Zhongshu :=
  { z with endTime := b3.endFractal.time, biIds := z.biIds ++ [b3.id] }

/-- New zhongshu from a bi triple, source `detectZhongshu` lines 227-235. -/
def mkZhongshu (zId : Nat) (zHigh zLow : ℚ) (b1 b2 b3 : Bi) : Zhongshu :=
  { id := zId, high := zHigh, low := zLow, startTime := b1.startFractal.time,
    endTime := b3.endFractal.time, biIds := [b1.id, b2.id, b3.id], isActive := true }

/-- One iteration of the `detectZhongshu` loop over a bi triple.  The state
is the zhongshu array in reverse order (head = mutable tail) plus the `zId`
counter. -/
def dzStep (st : List Zhongshu × Nat) (t : Bi × Bi × Bi) : List Zhongshu × Nat :=
  let acc := st.1
  let zId := st.2
  let b1 := t.1
  let b2 := t.2.1
  let b3 := t.2.2
  let r1 := getBiRange b1
  let r2 := getBiRange b2
  let r3 := getBiRange b3
  let zHigh := min (min r1.1 r2.1) r3.1
  let zLow := max (max r1.2 r2.2) r3.2
  if zHigh ≤ zLow then (acc, zId)
  else
    match acc with
    | [] => (mkZhongshu zId zHigh zLow b1 b2 b3 :: acc, zId + 1)
    | lastZ :: rest =>
      if lastZ.isActive &&
          (match lastZ.biIds.getLast? with
           | some lid => decide (lid ≤ b1.id)
           | none => false) then
        if r3.1 ≥ lastZ.low ∧ r3.2 ≤ lastZ.high then
          (extendZhongshu lastZ b3 :: rest, zId)
        else
          (mkZhongshu zId zHigh zLow b1 b2 b3 :: lastZ :: rest, zId + 1)
      else
        (mkZhongshu zId zHigh zLow b1 b2 b3 :: lastZ :: rest, zId + 1)

/-- Contiguous triples `(bis[i], bis[i+1], bis[i+2])` in index order. -/
def triples : List Bi → List (Bi × Bi × Bi)
  | a :: b :: c :: rest => (a, b, c) :: triples (b :: c :: rest)
  | _ => []

/-- Source `chanlunEngine.ts` lines 194-239: `detectZhongshu`. -/
def detectZhongshu (bis : List Bi) : List Zhongshu :=
  if bis.length < 3 then []
  else ((triples bis).foldl dzStep ([], 0)).1.reverse

/-- Source `types.ts`: `ThirdBuySignal` without its `id` field; the id is
attached by the `nanoid()` call sites modelled in `detectThirdBuysGo`. -/
structure ThirdBuyData where
  zhongshu : Zhongshu
  status : ThirdBuyStatus
  breakoutTime : Int
  breakoutPrice : ℚ
  pullbackLow : Option ℚ := none
  pullbackTime : Option Int := none
  confirmTime : Option Int := none
  confirmPrice : Option ℚ := none
  symbol : String
  timeframe : Timeframe
  market : MarketType
deriving DecidableEq, Repr

/-- Source `types.ts`: `ThirdBuySignal` (flat record; modelled as the data
part plus the `nanoid()`-generated `id`). -/
structure ThirdBuySignal extends ThirdBuyData where
  id : String
deriving DecidableEq, Repr

/-- Breakout test of `detectThirdBuys` step 1 (lines 272-282): an
up-directed bi whose end price exceeds `z.high` by at least
`breakoutAtr · avgATR` over its span. -/
def breakoutCond (z : Zhongshu) (atrValues : List (Option ℚ)) (params : ChanlunParams)
    (bi : Bi) : Prop :=
  bi.direction = BiDirection.up ∧ bi.endFractal.price > z.high ∧
    params.breakoutAtr * getAvgATR atrValues bi.startFractal.index bi.endFractal.index ≤
      bi.endFractal.price - z.high

instance (z : Zhongshu) (atrValues : List (Option ℚ)) (params : ChanlunParams) (bi : Bi) :
    Decidable (breakoutCond z atrValues params bi) := by
  unfold breakoutCond; infer_instance

/-- Scan for the first breakout bi at absolute index `i` or later; the list
argument is the corresponding suffix of the bi list. -/
def findBreakoutAux (z : Zhongshu) (atrValues : List (Option ℚ)) (params : ChanlunParams) :
    Nat → List Bi → Option (Bi × Nat)
  | _, [] => none
  | i, b :: rest =>
      if breakoutCond z atrValues params b then some (b, i)
      else findBreakoutAux z atrValues params (i + 1) rest

/-- Body of the `detectThirdBuys` loop for one zhongshu (source lines
263-360).  Returns the emitted signal data (if any) together with the
number of `nanoid()` calls made for this zhongshu (0, 1 or 2); when a
signal is emitted its id is the last id drawn. -/
def detectOne (bis : List Bi) (atrValues : List (Option ℚ)) (params : ChanlunParams)
    (symbol : String) (timeframe : Timeframe) (market : MarketType) (z : Zhongshu) :
    Option ThirdBuyData × Nat :=
  match z.biIds.getLast? with
  | none => (none, 0)
  | some lastBiId =>
    match bis.findIdx? (fun b => decide (b.id = lastBiId)) with
    | none => (none, 0)
    | some lastBiIdx =>
      if lastBiIdx ≥ bis.length - 1 then (none, 0)
      else
        match findBreakoutAux z atrValues params (lastBiIdx + 1) (bis.drop (lastBiIdx + 1)) with
        | none => (none, 0)
        | some (breakoutBi, breakoutIdx) =>
          if breakoutIdx + 1 ≥ bis.length then
            (some { zhongshu := z, status := ThirdBuyStatus.candidate,
                    breakoutTime := breakoutBi.endFractal.time,
                    breakoutPrice := breakoutBi.endFractal.price,
                    symbol := symbol, timeframe := timeframe, market := market }, 1)
          else
            match bis.get? (breakoutIdx + 1) with
            | none => (none, 0)
            | some pullbackBi =>
              if pullbackBi.direction ≠ BiDirection.down then (none, 0)
              else
                if pullbackBi.endFractal.price <
                    z.high - params.pullbackToleranceAtr *
                      getAvgATR atrValues pullbackBi.startFractal.index pullbackBi.endFractal.index then
                  (none, 0)
                else
                  match bis.get? (breakoutIdx + 2) with
                  | none =>
                    (some { zhongshu := z, status := ThirdBuyStatus.candidate,
                            breakoutTime := breakoutBi.endFractal.time,
                            breakoutPrice := breakoutBi.endFractal.price,
                            pullbackLow := some pullbackBi.endFractal.price,
                            pullbackTime := some pullbackBi.endFractal.time,
                            symbol := symbol, timeframe := timeframe, market := market }, 1)
                  | some confirmBi =>
                    if confirmBi.direction ≠ BiDirection.up then
                      (some { zhongshu := z, status := ThirdBuyStatus.candidate,
                              breakoutTime := breakoutBi.endFractal.time,
                              breakoutPrice := breakoutBi.endFractal.price,
                              pullbackLow := some pullbackBi.endFractal.price,
                              pullbackTime := some pullbackBi.endFractal.time,
                              symbol := symbol, timeframe := timeframe, market := market }, 1)
                    else
                      if (match params.confirmRule with
                          | ConfirmRule.new_high =>
                              decide (confirmBi.endFractal.price > breakoutBi.endFractal.price)
                          | ConfirmRule.break_pullback_high =>
                              decide (confirmBi.endFractal.price > pullbackBi.startFractal.price)) then
                        (some { zhongshu := z, status := ThirdBuyStatus.confirmed,
                                breakoutTime := breakoutBi.endFractal.time,
                                breakoutPrice := breakoutBi.endFractal.price,
                                pullbackLow := some pullbackBi.endFractal.price,
                                pullbackTime := some pullbackBi.endFractal.time,
                                confirmTime := some confirmBi.endFractal.time,
                                confirmPrice := some confirmBi.endFractal.price,
                                symbol := symbol, timeframe := timeframe, market := market }, 2)
                      else
                        (some { zhongshu := z, status := ThirdBuyStatus.candidate,
                                breakoutTime := breakoutBi.endFractal.time,
                                breakoutPrice := breakoutBi.endFractal.price,
                                pullbackLow := some pullbackBi.endFractal.price,
                                pullbackTime := some pullbackBi.endFractal.time,
                                symbol := symbol, timeframe := timeframe, market := market }, 1)

/-- Loop of `detectThirdBuys` over the zhongshu list, threading the index
of the next unused id of the `nanoid()` supply. -/
def detectThirdBuysGo (gen : Nat → String) (bis : List Bi) (atrValues : List (Option ℚ))
    (params : ChanlunParams) (symbol : String) (timeframe : Timeframe) (market : MarketType) :
    Nat → List Zhongshu → List ThirdBuySignal
  | _, [] => []
  | n, z :: zs =>
    match detectOne bis atrValues params symbol timeframe market z with
    | (none, _) => detectThirdBuysGo gen bis atrValues params symbol timeframe market n zs
    | (some d, k) =>
        { toThirdBuyData := d, id := gen (n + k - 1) } ::
          detectThirdBuysGo gen bis atrValues params symbol timeframe market (n + k) zs

/-- Source `chanlunEngine.ts` lines 252-363: `detectThirdBuys`. -/
def detectThirdBuys (gen : Nat → String) (bis : List Bi) (zhongshus : List Zhongshu)
    (atrValues : List (Option ℚ)) (params : ChanlunParams) (symbol : String)
    (timeframe : Timeframe) (market : MarketType) : List ThirdBuySignal :=
  detectThirdBuysGo gen bis atrValues params symbol timeframe market 0 zhongshus

/-- C9: when `detectZhongshu` extends an existing active zhongshu with a
later bi (the `extendZhongshu` branch of its loop), only `endTime` and the
`biIds` list change: `high`, `low`, `id`, `startTime` and `isActive` are
unchanged by the extension. -/
theorem C9_extension_frame (z : Zhongshu) (b3 : Bi) :
    (extendZhongshu z b3).high = z.high ∧ (extendZhongshu z b3).low = z.low ∧
    (extendZhongshu z b3).id = z.id ∧ (extendZhongshu z b3).startTime = z.startTime ∧
    (extendZhongshu z b3).isActive = z.isActive ∧
    (extendZhongshu z b3).endTime = b3.endFractal.time ∧
    (extendZhongshu z b3).biIds = z.biIds ++ [b3.id] :=
  ⟨rfl, rfl, rfl, rfl, rfl, rfl, rfl⟩

/- The Batteries rational operations are `@[irreducible]`, which blocks
`decide`-style evaluation at concrete inputs; re-allow unfolding them. -/
attribute [local semireducible] Rat.mul Rat.add Rat.sub Rat.inv Rat.ofScientific

/-- Zhongshu for the C2 counterexample. -/
def zC2 : Zhongshu :=
  { id := 0, high := 10, low := 5, startTime := 0, endTime := 3,
    biIds := [0], isActive := true }

/-- Bi list for the C2 counterexample: bi 1 breaks out above `zC2.high`,
and the following bi 2 is up-directed (not down). -/
def bisC2 : List Bi :=
  [⟨0, BiDirection.down, ⟨0, 0, 20, FractalType.top⟩, ⟨3, 3, 1, FractalType.bottom⟩, 3⟩,
   ⟨1, BiDirection.up, ⟨3, 3, 1, FractalType.bottom⟩, ⟨8, 8, 15, FractalType.top⟩, 5⟩,
   ⟨2, BiDirection.up, ⟨8, 8, 15, FractalType.top⟩, ⟨13, 13, 18, FractalType.top⟩, 5⟩]

/-- Concrete id supply standing for one stream of `nanoid()` outputs. -/
def genA : Nat → String := fun n => "a" ++ toString n

/-- Second id supply, standing for the different `nanoid()` outputs a
repeated run draws. -/
def genB : Nat → String := fun n => "b" ++ toString n

/-- C2 counterexample: `zC2`'s breakout bi (absolute index 1) is followed
by a bi that is not down-directed, yet `detectThirdBuys` emits nothing at
all — the source skips the zhongshu without emitting the breakout-info
candidate the claim describes. -/
theorem C2_counterexample :
    findBreakoutAux zC2 [] paramsC5 1 (bisC2.drop 1) =
      some (⟨1, BiDirection.up, ⟨3, 3, 1, FractalType.bottom⟩,
             ⟨8, 8, 15, FractalType.top⟩, 5⟩, 1) ∧
    (bisC2.get? 2).map Bi.direction = some BiDirection.up ∧
    detectThirdBuys genA bisC2 [zC2] [] paramsC5 "S" Timeframe.H1 MarketType.fx = [] := by
  refine ⟨by decide, by decide, by decide⟩

/-- C2 (amended): when the breakout bi found for a zhongshu has a following
bi that is not down-directed, `detectOne` emits no signal at all for that
zhongshu (the breakout-info candidate is emitted only when no bi follows
the breakout bi). -/
theorem C2_amended_no_signal (bis : List Bi) (atrValues : List (Option ℚ))
    (params : ChanlunParams) (symbol : String) (timeframe : Timeframe) (market : MarketType)
    (z : Zhongshu) (lastBiId lastBiIdx : Nat) (breakoutBi pullbackBi : Bi) (breakoutIdx : Nat)
    (h1 : z.biIds.getLast? = some lastBiId)
    (h2 : bis.findIdx? (fun b => decide (b.id = lastBiId)) = some lastBiIdx)
    (h3 : ¬ lastBiIdx ≥ bis.length - 1)
    (h4 : findBreakoutAux z atrValues params (lastBiIdx + 1) (bis.drop (lastBiIdx + 1)) =
            some (breakoutBi, breakoutIdx))
    (h5 : ¬ breakoutIdx + 1 ≥ bis.length)
    (h6 : bis.get? (breakoutIdx + 1) = some pullbackBi)
    (h7 : pullbackBi.direction ≠ BiDirection.down) :
    detectOne bis atrValues params symbol timeframe market z = (none, 0) := by
  simp only [detectOne, h1, h2, h4, h6, if_neg h3, if_neg h5, if_pos h7]

/-- Witness instantiating the amended C2 theorem at the concrete input. -/
theorem C2_amended_witness :
    detectOne bisC2 [] paramsC5 "S" Timeframe.H1 MarketType.fx zC2 = (none, 0) :=
  C2_amended_no_signal bisC2 [] paramsC5 "S" Timeframe.H1 MarketType.fx zC2 0 0
    ⟨1, BiDirection.up, ⟨3, 3, 1, FractalType.bottom⟩, ⟨8, 8, 15, FractalType.top⟩, 5⟩
    ⟨2, BiDirection.up, ⟨8, 8, 15, FractalType.top⟩, ⟨13, 13, 18, FractalType.top⟩, 5⟩
    1 (by decide) (by decide) (by decide) (by decide) (by decide) (by decide) (by decide)

/-- Zhongshu for the C4 counterexample. -/
def zC4 : Zhongshu :=
  { id := 0, high := 10, low := 5, startTime := 0, endTime := 3,
    biIds := [0], isActive := true }

/-- Bi list for the C4 counterexample: breakout (bi 1), valid pullback
(bi 2, holds above the zhongshu high) and confirming up bi (bi 3, breaks
the pullback start). -/
def bisC4 : List Bi :=
  [⟨0, BiDirection.down, ⟨0, 0, 20, FractalType.top⟩, ⟨3, 3, 1, FractalType.bottom⟩, 3⟩,
   ⟨1, BiDirection.up, ⟨3, 3, 1, FractalType.bottom⟩, ⟨8, 8, 15, FractalType.top⟩, 5⟩,
   ⟨2, BiDirection.down, ⟨8, 8, 15, FractalType.top⟩, ⟨11, 11, 12, FractalType.bottom⟩, 3⟩,
   ⟨3, BiDirection.up, ⟨11, 11, 12, FractalType.bottom⟩, ⟨16, 16, 16, FractalType.top⟩, 5⟩]

/-- Signal data the confirmed path of the C4 input produces. -/
def dC4 : ThirdBuyData :=
  { zhongshu := zC4, status := ThirdBuyStatus.confirmed,
    breakoutTime := 8, breakoutPrice := 15,
    pullbackLow := some 12, pullbackTime := some 11,
    confirmTime := some 16, confirmPrice := some 16,
    symbol := "S", timeframe := Timeframe.H1, market := MarketType.fx }

/-- C4 counterexample: on an input whose third-buy passes the confirmation
check, `detectThirdBuys` returns exactly one signal, of status `confirmed`;
the held candidate is not kept in the result, contradicting the claim that
both are present. -/
theorem C4_counterexample :
    (detectThirdBuys genA bisC4 [zC4] [] paramsC5 "S" Timeframe.H1 MarketType.fx).map
        (fun s => s.status) = [ThirdBuyStatus.confirmed] := by decide

/-- C4 (amended): when a third-buy passes the confirmation check, the
result contains for that zhongshu a single signal — the held candidate's
data with status `confirmed` — and two ids are drawn from the supply (the
candidate's id draw is discarded), so the emitted confirmed signal carries
the second, distinct id; the candidate signal itself is not added. -/
theorem C4_amended_single_confirmed (bis : List Bi) (atrValues : List (Option ℚ))
    (params : ChanlunParams) (symbol : String) (timeframe : Timeframe) (market : MarketType)
    (z : Zhongshu) (d : ThirdBuyData) (k : Nat)
    (h : detectOne bis atrValues params symbol timeframe market z = (some d, k))
    (hconf : d.status = ThirdBuyStatus.confirmed) :
    k = 2 ∧ ∀ (gen : Nat → String) (n : Nat) (zs : List Zhongshu),
      detectThirdBuysGo gen bis atrValues params symbol timeframe market n (z :: zs) =
        { toThirdBuyData := d, id := gen (n + 1) } ::
          detectThirdBuysGo gen bis atrValues params symbol timeframe market (n + 2) zs := by
  have hk : k = 2 := by
    unfold detectOne at h
    repeat' split at h
    all_goals (
      simp at h
      try (obtain ⟨h1, h2⟩ := h
           first
             | exact h2.symm
             | (rw [← h1] at hconf
                exact absurd hconf (by simp))))
  subst hk
  refine ⟨rfl, ?_⟩
  intro gen n zs
  simp only [detectThirdBuysGo, h]
  norm_num

/-- Witness instantiating the amended C4 theorem at the concrete input. -/
theorem C4_amended_witness :
    detectThirdBuysGo genA bisC4 [] paramsC5 "S" Timeframe.H1 MarketType.fx 0 [zC4] =
      [{ toThirdBuyData := dC4, id := genA 1 }] := by
  have h := C4_amended_single_confirmed bisC4 [] paramsC5 "S" Timeframe.H1 MarketType.fx
    zC4 dC4 2 (by decide) rfl
  simpa [detectThirdBuysGo] using h.2 genA 0 []

/-- Wilder smoothing chain of `calcATR` (lines 150-153): each new ATR is
`(atr·(period-1) + tr)/period`. -/
def wilderChain (period : Nat) : ℚ → List ℚ → List ℚ
  | _, [] => []
  | atr, tr :: rest =>
      ((atr * ((period : ℚ) - 1) + tr) / (period : ℚ)) ::
        wilderChain period ((atr * ((period : ℚ) - 1) + tr) / (period : ℚ)) rest

/-- Source `indicators.ts` lines 136-155: `calcATR`.  True ranges are taken
over adjacent bar pairs; the output is aligned to bar indices with `none`
(NaN) before index `period`.  (For `period = 0` the source would divide by
zero producing NaN; all uses fix `period = 14`.) -/
def calcATR (bars : List OHLCBar) (period : Nat) : List (Option ℚ) :=
  if bars.length < 2 then []
  else
    let trs := (bars.zip bars.tail).map (fun p =>
      max (p.2.high - p.2.low) (max |p.2.high - p.1.close| |p.2.low - p.1.close|))
    if trs.length < period then List.replicate bars.length none
    else
      List.replicate period (none : Option ℚ) ++
        (((trs.take period).sum / (period : ℚ)) ::
          wilderChain period ((trs.take period).sum / (period : ℚ)) (trs.drop period)).map some

/-- Source `chanlunEngine.ts`: the optional `Partial<ChanlunParams>`
argument of `runChanlun`; `none` fields fall back to the market default. -/
structure ChanlunParamsPartial where
  minBiKbars : Option Nat := none
  minBiMoveAtr : Option ℚ := none
  breakoutAtr : Option ℚ := none
  pullbackToleranceAtr : Option ℚ := none
  confirmRule : Option ConfirmRule := none
deriving DecidableEq, Repr

/-- Field-wise merge `{ ...DEFAULT_PARAMS[market], ...params }` of
`runChanlun` line 384. -/
def mergeParams (base : ChanlunParams) (override : ChanlunParamsPartial) : ChanlunParams :=
  { minBiKbars := override.minBiKbars.getD base.minBiKbars,
    minBiMoveAtr := override.minBiMoveAtr.getD base.minBiMoveAtr,
    breakoutAtr := override.breakoutAtr.getD base.breakoutAtr,
    pullbackToleranceAtr := override.pullbackToleranceAtr.getD base.pullbackToleranceAtr,
    confirmRule := override.confirmRule.getD base.confirmRule }

/-- Source `chanlunEngine.ts` lines 369-375: `ChanlunResult`. -/
structure ChanlunResult where
  processedBars : List ProcessedBar
  fractals : List Fractal
  bis : List Bi
  zhongshus : List Zhongshu
  thirdBuys : List ThirdBuySignal
deriving DecidableEq, Repr

/-- Source `chanlunEngine.ts` lines 377-394: `runChanlun`, the full
pipeline; `gen` is the ambient `nanoid()` supply of the run. -/
def runChanlun (gen : Nat → String) (bars : List OHLCBar) (market : MarketType)
    (symbol : String) (timeframe : Timeframe) (params : ChanlunParamsPartial) : ChanlunResult :=
  let p := mergeParams (DEFAULT_PARAMS market) params
  let atrValues := calcATR bars 14
  let processedBars := processContainment bars
  let fractals := detectFractals processedBars
  let bis := formBis fractals processedBars atrValues p
  let zhongshus := detectZhongshu bis
  { processedBars := processedBars, fractals := fractals, bis := bis,
    zhongshus := zhongshus,
    thirdBuys := detectThirdBuys gen bis zhongshus atrValues p symbol timeframe market }

theorem detectThirdBuysGo_strip (gen1 gen2 : Nat → String) (bis : List Bi)
    (atrValues : List (Option ℚ)) (params : ChanlunParams) (symbol : String)
    (timeframe : Timeframe) (market : MarketType) :
    ∀ (zs : List Zhongshu) (n1 n2 : Nat),
      (detectThirdBuysGo gen1 bis atrValues params symbol timeframe market n1 zs).map
          ThirdBuySignal.toThirdBuyData =
        (detectThirdBuysGo gen2 bis atrValues params symbol timeframe market n2 zs).map
          ThirdBuySignal.toThirdBuyData := by
  intro zs
  induction zs with
  | nil => intro n1 n2; rfl
  | cons z t ih =>
    intro n1 n2
    rcases hdet : detectOne bis atrValues params symbol timeframe market z with ⟨o, k⟩
    cases o with
    | none =>
        simp only [detectThirdBuysGo, hdet]
        exact ih n1 n2
    | some d =>
        simp only [detectThirdBuysGo, hdet, List.map_cons]
        exact congrArg (fun l => d :: l) (ih (n1 + k) (n2 + k))

/-- C3 (amended): two runs of the pipeline on the same bars, market,
symbol, timeframe and parameters yield identical processed bars, fractals,
bis and zhongshus; the third-buy signals agree in every field except the
`nanoid()`-generated `id`.  Full equality of the third-buy signals fails
because each run draws fresh random ids. -/
theorem C3_amended_deterministic_up_to_ids (gen1 gen2 : Nat → String) (bars : List OHLCBar)
    (market : MarketType) (symbol : String) (timeframe : Timeframe)
    (params : ChanlunParamsPartial) :
    (runChanlun gen1 bars market symbol timeframe params).processedBars =
      (runChanlun gen2 bars market symbol timeframe params).processedBars ∧
    (runChanlun gen1 bars market symbol timeframe params).fractals =
      (runChanlun gen2 bars market symbol timeframe params).fractals ∧
    (runChanlun gen1 bars market symbol timeframe params).bis =
      (runChanlun gen2 bars market symbol timeframe params).bis ∧
    (runChanlun gen1 bars market symbol timeframe params).zhongshus =
      (runChanlun gen2 bars market symbol timeframe params).zhongshus ∧
    (runChanlun gen1 bars market symbol timeframe params).thirdBuys.map
        ThirdBuySignal.toThirdBuyData =
      (runChanlun gen2 bars market symbol timeframe params).thirdBuys.map
        ThirdBuySignal.toThirdBuyData :=
  ⟨rfl, rfl, rfl, rfl,
    detectThirdBuysGo_strip gen1 gen2 _ _ _ symbol timeframe market _ 0 0⟩

/-- Bar list for the C3 counterexample: a strict zigzag of unit-range bars
producing 6 alternating fractals, 5 bis, 3 zhongshus and two third-buy
candidates. -/
def barsC3 : List OHLCBar :=
  [⟨0, 10, 11, 10, 10, none⟩, ⟨1, 0, 1, 0, 0, none⟩, ⟨2, 11, 12, 11, 11, none⟩,
   ⟨3, 1, 2, 1, 1, none⟩, ⟨4, 12, 13, 12, 12, none⟩, ⟨5, 2, 3, 2, 2, none⟩,
   ⟨6, 13, 14, 13, 13, none⟩, ⟨7, 3, 4, 3, 3, none⟩]

/-- Parameter override for the C3 counterexample (all thresholds relaxed). -/
def paramsC3 : ChanlunParamsPartial :=
  { minBiKbars := some 0, minBiMoveAtr := some 0, breakoutAtr := some 0,
    pullbackToleranceAtr := some 0, confirmRule := some ConfirmRule.break_pullback_high }

/-- C3 counterexample: on the same inputs, two runs of `runChanlun` under
different `nanoid()` draws emit third-buy signals (here two candidates)
whose ids differ, so the structural outputs are not identical. -/
theorem C3_counterexample :
    (runChanlun genA barsC3 MarketType.fx "EURUSD" Timeframe.H1 paramsC3).thirdBuys ≠
      (runChanlun genB barsC3 MarketType.fx "EURUSD" Timeframe.H1 paramsC3).thirdBuys ∧
    (runChanlun genA barsC3 MarketType.fx "EURUSD" Timeframe.H1 paramsC3).thirdBuys.length = 2 := by
  refine ⟨by decide, by decide⟩

/-- EMA recurrence of `calcEMA` (lines 20-22): each output is
`values[i]·k + ema[i-1]·(1-k)`. -/
def emaTail (k : ℚ) : ℚ → List ℚ → List ℚ
  | _, [] => []
  | prev, v :: rest => (v * k + prev * (1 - k)) :: emaTail k (v * k + prev * (1 - k)) rest

/-- Source `indicators.ts` lines 10-24: `calcEMA`.  Returns `[]` when the
input is shorter than the period; otherwise an array of the input's length
with `none` (NaN) before index `period - 1`, the SMA seed there, and the
EMA recurrence after.  (For `period = 0` the source's seed write lands on
array index `-1`, a plain property, leaving every entry NaN; that case is
modelled directly as an all-`none` array.) -/
def calcEMA (values : List ℚ) (period : Nat) : List (Option ℚ) :=
  if period = 0 then values.map (fun _ => none)
  else if values.length < period then []
  else
    List.replicate (period - 1) (none : Option ℚ) ++
      (some ((values.take period).sum / (period : ℚ)) ::
        (emaTail (2 / ((period : ℚ) + 1)) ((values.take period).sum / (period : ℚ))
          (values.drop period)).map some)

theorem emaTail_length (k : ℚ) : ∀ (p : ℚ) (l : List ℚ), (emaTail k p l).length = l.length := by
  intro p l
  induction l generalizing p with
  | nil => rfl
  | cons v rest ih => simp [emaTail, ih]

theorem replicate_append_get? {α : Type} (a : α) (l : List α) :
    ∀ (n i : Nat), i < n → (List.replicate n a ++ l).get? i = some a := by
  intro n
  induction n with
  | zero => intro i h; exact absurd h (Nat.not_lt_zero i)
  | succ m ih =>
    intro i h
    cases i with
    | zero => rfl
    | succ j =>
        simp only [List.replicate_succ, List.cons_append, List.get?_cons_succ]
        exact ih j (Nat.lt_of_succ_lt_succ h)

/-- C7 (amended): for a positive period, `calcEMA` returns the empty array
when the input is shorter than the period; otherwise (and for `period = 0`)
the output has the input's length with NaN at every position before index
`period - 1`.  The claim's unconditional length equality fails on short
inputs. -/
theorem C7_amended_calcEMA_shape (values : List ℚ) (period : Nat) :
    (values.length < period → calcEMA values period = []) ∧
    (period ≤ values.length →
      (calcEMA values period).length = values.length ∧
      ∀ i, i + 1 < period → (calcEMA values period).get? i = some none) := by
  constructor
  · intro h
    have hp : ¬ period = 0 := by omega
    unfold calcEMA
    rw [if_neg hp, if_pos h]
  · intro hple
    by_cases hp : period = 0
    · subst hp
      unfold calcEMA
      rw [if_pos rfl]
      exact ⟨by simp, fun i hi => absurd hi (by omega)⟩
    · have hnlt : ¬ values.length < period := not_lt.mpr hple
      unfold calcEMA
      rw [if_neg hp, if_neg hnlt]
      constructor
      · simp only [List.length_append, List.length_replicate, List.length_cons,
          List.length_map, emaTail_length, List.length_drop]
        omega
      · intro i hi
        exact replicate_append_get? _ _ _ i (by omega)

/-- C7 counterexample: a one-element input with period 2 yields the empty
array, so the output length differs from the input length. -/
theorem C7_counterexample :
    (calcEMA [(1 : ℚ)] 2).length ≠ ([(1 : ℚ)]).length := by decide

/-- Witness instantiating the amended C7 theorem at concrete inputs. -/
theorem C7_amended_witness :
    calcEMA [(1 : ℚ)] 2 = [] ∧ (calcEMA [(1 : ℚ), 2, 3] 2).length = 3 ∧
    (calcEMA [(1 : ℚ), 2, 3] 2).get? 0 = some none := by
  refine ⟨(C7_amended_calcEMA_shape [(1 : ℚ)] 2).1 (by decide), ?_, ?_⟩
  · exact ((C7_amended_calcEMA_shape [(1 : ℚ), 2, 3] 2).2 (by decide)).1
  · exact ((C7_amended_calcEMA_shape [(1 : ℚ), 2, 3] 2).2 (by decide)).2 0 (by decide)

/-- Source `types.ts`: `RSIPoint`. -/
structure RSIPoint where
  time : Int
  value : ℚ
deriving DecidableEq, Repr

/-- RSI formula of `calcRSI` (lines 94-95 and 103-104): the source
substitutes `rs = 100` when the average loss is 0, then returns
`100 - 100/(1 + rs)`. -/
def rsiValue (g l : ℚ) : ℚ :=
  100 - 100 / (1 + (if l = 0 then 100 else g / l))

/-- Wilder smoothing loop of `calcRSI` (lines 97-105) over the remaining
(time, diff) pairs. -/
def rsiLoop (period : Nat) : ℚ → ℚ → List (Int × ℚ) → List RSIPoint
  | _, _, [] => []
  | g, l, (t, d) :: rest =>
      ⟨t, rsiValue ((g * ((period : ℚ) - 1) + (if d > 0 then d else 0)) / (period : ℚ))
            ((l * ((period : ℚ) - 1) + (if d < 0 then -d else 0)) / (period : ℚ))⟩ ::
        rsiLoop period ((g * ((period : ℚ) - 1) + (if d > 0 then d else 0)) / (period : ℚ))
          ((l * ((period : ℚ) - 1) + (if d < 0 then -d else 0)) / (period : ℚ)) rest

/-- Ghost variant of `rsiLoop` that also records the running average loss
in effect at each emitted point. -/
def rsiLoopG (period : Nat) : ℚ → ℚ → List (Int × ℚ) → List (ℚ × RSIPoint)
  | _, _, [] => []
  | g, l, (t, d) :: rest =>
      (((l * ((period : ℚ) - 1) + (if d < 0 then -d else 0)) / (period : ℚ)),
        ⟨t, rsiValue ((g * ((period : ℚ) - 1) + (if d > 0 then d else 0)) / (period : ℚ))
              ((l * ((period : ℚ) - 1) + (if d < 0 then -d else 0)) / (period : ℚ))⟩) ::
        rsiLoopG period ((g * ((period : ℚ) - 1) + (if d > 0 then d else 0)) / (period : ℚ))
          ((l * ((period : ℚ) - 1) + (if d < 0 then -d else 0)) / (period : ℚ)) rest

/-- Initial simple averages of gains and losses over the first `period`
diffs (lines 86-92); a zero diff contributes `|0| = 0` to the loss sum. -/
def rsiSeed (period : Nat) (diffs : List ℚ) : ℚ × ℚ :=
  (((diffs.map (fun d => if d > 0 then d else 0)).sum) / (period : ℚ),
   ((diffs.map (fun d => if d > 0 then 0 else -d)).sum) / (period : ℚ))

/-- Source `indicators.ts` lines 77-108: `calcRSI` (Wilder). -/
def calcRSI (bars : List OHLCBar) (period : Nat) : List RSIPoint :=
  if bars.length < period + 1 then []
  else
    ⟨(bars.map OHLCBar.time).getD period 0,
      rsiValue (rsiSeed period ((List.zipWith (fun a b => a - b)
          (bars.map OHLCBar.close).tail (bars.map OHLCBar.close)).take period)).1
        (rsiSeed period ((List.zipWith (fun a b => a - b)
          (bars.map OHLCBar.close).tail (bars.map OHLCBar.close)).take period)).2⟩ ::
      rsiLoop period
        (rsiSeed period ((List.zipWith (fun a b => a - b)
          (bars.map OHLCBar.close).tail (bars.map OHLCBar.close)).take period)).1
        (rsiSeed period ((List.zipWith (fun a b => a - b)
          (bars.map OHLCBar.close).tail (bars.map OHLCBar.close)).take period)).2
        (((bars.map OHLCBar.time).drop (period + 1)).zip
          ((List.zipWith (fun a b => a - b)
            (bars.map OHLCBar.close).tail (bars.map OHLCBar.close)).drop period))

/-- Ghost variant of `calcRSI` pairing each output point with the running
average loss in effect at that point. -/
def rsiStates (bars : List OHLCBar) (period : Nat) : List (ℚ × RSIPoint) :=
  if bars.length < period + 1 then []
  else
    ((rsiSeed period ((List.zipWith (fun a b => a - b)
          (bars.map OHLCBar.close).tail (bars.map OHLCBar.close)).take period)).2,
      ⟨(bars.map OHLCBar.time).getD period 0,
        rsiValue (rsiSeed period ((List.zipWith (fun a b => a - b)
            (bars.map OHLCBar.close).tail (bars.map OHLCBar.close)).take period)).1
          (rsiSeed period ((List.zipWith (fun a b => a - b)
            (bars.map OHLCBar.close).tail (bars.map OHLCBar.close)).take period)).2⟩) ::
      rsiLoopG period
        (rsiSeed period ((List.zipWith (fun a b => a - b)
          (bars.map OHLCBar.close).tail (bars.map OHLCBar.close)).take period)).1
        (rsiSeed period ((List.zipWith (fun a b => a - b)
          (bars.map OHLCBar.close).tail (bars.map OHLCBar.close)).take period)).2
        (((bars.map OHLCBar.time).drop (period + 1)).zip
          ((List.zipWith (fun a b => a - b)
            (bars.map OHLCBar.close).tail (bars.map OHLCBar.close)).drop period))

theorem rsiValue_eq_of_loss_zero (g l : ℚ) (h : l = 0) : rsiValue g l = 10000 / 101 := by
  subst h
  unfold rsiValue
  norm_num

theorem rsiLoopG_snd (period : Nat) : ∀ (g l : ℚ) (pairs : List (Int × ℚ)),
    (rsiLoopG period g l pairs).map Prod.snd = rsiLoop period g l pairs := by
  intro g l pairs
  induction pairs generalizing g l with
  | nil => rfl
  | cons q rest ih =>
      obtain ⟨t, d⟩ := q
      simp only [rsiLoopG, rsiLoop, List.map_cons]
      exact congrArg (fun lst => _ :: lst) (ih _ _)

theorem rsiLoopG_loss_zero (period : Nat) : ∀ (g l : ℚ) (pairs : List (Int × ℚ)),
    ∀ p ∈ rsiLoopG period g l pairs, p.1 = 0 → p.2.value = 10000 / 101 := by
  intro g l pairs
  induction pairs generalizing g l with
  | nil => intro p hp; simp [rsiLoopG] at hp
  | cons q rest ih =>
      obtain ⟨t, d⟩ := q
      intro p hp hl
      simp only [rsiLoopG, List.mem_cons] at hp
      rcases hp with rfl | hp
      · exact rsiValue_eq_of_loss_zero _ _ hl
      · exact ih _ _ p hp hl

/-- C6 (amended): `calcRSI` is the point part of `rsiStates`, and at every
output position whose running average loss is 0 the emitted RSI value is
`100 - 100/(1 + 100) = 10000/101 ≈ 99.01`, not 100: the source substitutes
`rs = 100` (not RSI = 100) when the average loss is 0. -/
theorem C6_amended_rsi_avgLoss_zero (bars : List OHLCBar) (period : Nat) :
    calcRSI bars period = (rsiStates bars period).map Prod.snd ∧
    ∀ p ∈ rsiStates bars period, p.1 = 0 → p.2.value = 10000 / 101 := by
  constructor
  · unfold calcRSI rsiStates
    by_cases h : bars.length < period + 1
    · rw [if_pos h, if_pos h]; rfl
    · rw [if_neg h, if_neg h]
      simp only [List.map_cons]
      exact congrArg (fun lst => _ :: lst) (rsiLoopG_snd period _ _ _).symm
  · intro p hp hl
    unfold rsiStates at hp
    by_cases h : bars.length < period + 1
    · rw [if_pos h] at hp; simp at hp
    · rw [if_neg h] at hp
      simp only [List.mem_cons] at hp
      rcases hp with rfl | hp
      · exact rsiValue_eq_of_loss_zero _ _ hl
      · exact rsiLoopG_loss_zero period _ _ _ p hp hl

/-- Two-bar input whose single diff is a gain, so the seed average loss
is 0. -/
def barsC6 : List OHLCBar :=
  [⟨0, 1, 1, 1, 1, none⟩, ⟨1, 2, 2, 2, 2, none⟩]

/-- C6 counterexample: with period 1 on `barsC6` the seed position has
running average loss 0, and the RSI value produced there is `10000/101`,
which is not 100. -/
theorem C6_counterexample :
    rsiStates barsC6 1 = [((0 : ℚ), ⟨1, 10000 / 101⟩)] ∧
    ((10000 : ℚ) / 101) ≠ 100 ∧
    (calcRSI barsC6 1).map RSIPoint.value = [10000 / 101] := by
  refine ⟨by decide, by decide, by decide⟩

/-- Witness instantiating the amended C6 theorem at the concrete input. -/
theorem C6_amended_witness :
    calcRSI barsC6 1 = (rsiStates barsC6 1).map Prod.snd ∧
    (((0 : ℚ), (⟨1, 10000 / 101⟩ : RSIPoint)) : ℚ × RSIPoint).2.value = 10000 / 101 := by
  refine ⟨(C6_amended_rsi_avgLoss_zero barsC6 1).1, ?_⟩
  exact (C6_amended_rsi_avgLoss_zero barsC6 1).2 ((0 : ℚ), ⟨1, 10000 / 101⟩)
    (by decide) (by decide)

/-- Source `types.ts`: `SignalType` (closed enumeration). -/
inductive SignalType where
  | bollinger_breakout_up
  | bollinger_breakout_down
  | macd_golden_cross
  | macd_death_cross
  | rsi_oversold_reversal
  | rsi_overbought_reversal
  | volatility_surge
  | large_body_candle
  | key_level_breakout
  | multi_timeframe_resonance
  | third_buy_candidate
  | third_buy_confirmed
deriving DecidableEq, Repr

/-- String form of a timeframe, as it appears in the source's literals. -/
def tfString : Timeframe → String
  | Timeframe.D1 => "1D"
  | Timeframe.H4 => "4H"
  | Timeframe.m15 => "15m"
  | Timeframe.H1 => "1H"
  | Timeframe.m5 => "5m"

/-- String form of a signal type, as it appears in the source's literals. -/
def signalTypeString : SignalType → String
  | SignalType.bollinger_breakout_up => "bollinger_breakout_up"
  | SignalType.bollinger_breakout_down => "bollinger_breakout_down"
  | SignalType.macd_golden_cross => "macd_golden_cross"
  | SignalType.macd_death_cross => "macd_death_cross"
  | SignalType.rsi_oversold_reversal => "rsi_oversold_reversal"
  | SignalType.rsi_overbought_reversal => "rsi_overbought_reversal"
  | SignalType.volatility_surge => "volatility_surge"
  | SignalType.large_body_candle => "large_body_candle"
  | SignalType.key_level_breakout => "key_level_breakout"
  | SignalType.multi_timeframe_resonance => "multi_timeframe_resonance"
  | SignalType.third_buy_candidate => "third_buy_candidate"
  | SignalType.third_buy_confirmed => "third_buy_confirmed"

/-- Source signal engine line 416: the 5-minute dedup window in ms. -/
def DEDUP_WINDOW_MS : Int := 5 * 60 * 1000

/-- Source signal engine lines 421-423: dedup key
`symbol:timeframe:type`. -/
def dedupKey (symbol : String) (tf : Timeframe) (ty : SignalType) : String :=
  symbol ++ ":" ++ tfString tf ++ ":" ++ signalTypeString ty

/-- Source signal engine lines 425-430: `isDuplicate`.  The map
`signalHistory` is modelled as a function `String → Option Int`; the JS
falsy test `!last` also treats a stored 0 as absent. -/
def isDuplicate (hist : String → Option Int) (symbol : String) (tf : Timeframe)
    (ty : SignalType) (now : Int) : Bool :=
  match hist (dedupKey symbol tf ty) with
  | none => false
  | some last => if last = 0 then false else decide (now - last < DEDUP_WINDOW_MS)

/-- Source signal engine lines 432-434: `markTriggered`. -/
def markTriggered (hist : String → Option Int) (symbol : String) (tf : Timeframe)
    (ty : SignalType) (now : Int) : String → Option Int :=
  fun k => if k = dedupKey symbol tf ty then some now else hist k

/-- Gate the detectors use before emitting: `!isDuplicate(...)`. -/
def shouldEmit (hist : String → Option Int) (symbol : String) (tf : Timeframe)
    (ty : SignalType) (now : Int) : Bool :=
  ! isDuplicate hist symbol tf ty now

/-- C8: for a fixed `(symbol, timeframe, kind)` key, the detectors' gate
`should_emit(now) = !isDuplicate(now)` is true iff no entry exists for the
key or `now - last ≥ 5·60·1000 ms`; and any two successive emissions gated
by `isDuplicate`-false-then-`markTriggered` are at least the window apart.
Stored entries are `Date.now()` values, hence positive (the source's
falsy `!last` test would also treat a stored 0 as absent). -/
theorem C8_deduper_window (hist : String → Option Int) (symbol : String)
    (tf : Timeframe) (ty : SignalType) (now t1 t2 : Int)
    (hpos : ∀ v, hist (dedupKey symbol tf ty) = some v → 0 < v) :
    (shouldEmit hist symbol tf ty now = true ↔
      (hist (dedupKey symbol tf ty) = none ∨
        ∃ last, hist (dedupKey symbol tf ty) = some last ∧
          DEDUP_WINDOW_MS ≤ now - last)) ∧
    (0 < t1 → shouldEmit (markTriggered hist symbol tf ty t1) symbol tf ty t2 = true →
      DEDUP_WINDOW_MS ≤ t2 - t1) := by
  constructor
  · rcases hcase : hist (dedupKey symbol tf ty) with _ | last
    · simp [shouldEmit, isDuplicate, hcase]
    · have hne : ¬ last = 0 := by
        have h0 := hpos last hcase
        omega
      simp only [shouldEmit, isDuplicate, hcase, if_neg hne, Bool.not_eq_true',
        decide_eq_false_iff_not, not_lt]
      constructor
      · intro hge
        exact Or.inr ⟨last, rfl, hge⟩
      · rintro (hno | ⟨l, hl, hge⟩)
        · exact Option.noConfusion hno
        · have hll := Option.some.inj hl
          rw [hll]
          exact hge
  · intro ht1 hse
    have hkeyeq : markTriggered hist symbol tf ty t1 (dedupKey symbol tf ty) = some t1 := by
      unfold markTriggered
      rw [if_pos rfl]
    simp only [shouldEmit, isDuplicate, hkeyeq, if_neg (show ¬ t1 = 0 by omega),
      Bool.not_eq_true', decide_eq_false_iff_not, not_lt] at hse
    exact hse

/-- Empty dedup history. -/
def histEmpty : String → Option Int := fun _ => none

/-- Witness instantiating the C8 theorem: after an emission at t₁ = 1 ms,
a second gated emission at t₂ = 300001 ms satisfies the 5-minute window. -/
theorem C8_witness : DEDUP_WINDOW_MS ≤ (300001 : Int) - 1 := by
  have h := C8_deduper_window histEmpty "EURUSD" Timeframe.H1
    SignalType.macd_golden_cross 0 1 300001
    (fun v hv => absurd hv (by simp [histEmpty]))
  exact h.2 (by omega) (by decide)

/-- Source `types.ts`: the optional `keyLevels` payload of `Signal`. -/
structure KeyLevels where
  zhongshuHigh : Option ℚ := none
  zhongshuLow : Option ℚ := none
  pullbackLow : Option ℚ := none
  confirmPrice : Option ℚ := none
deriving DecidableEq, Repr

/-- Source `types.ts`: `Signal`. -/
structure Signal where
  id : String
  symbol : String
  market : MarketType
  timeframe : Timeframe
  type : SignalType
  strength : ℚ
  price : ℚ
  time : Int
  description : String
  keyLevels : Option KeyLevels := none
  acknowledged : Option Bool := none
deriving DecidableEq, Repr

/-- Source `SignalStore` line 774: the fixed buffer capacity. -/
def maxSignals : Nat := 500

/-- State of `SignalStore`: the signal buffer, newest first. -/
structure SignalStoreState where
  signals : List Signal
deriving DecidableEq, Repr

/-- Source `SignalStore.addSignals` (lines 776-780): an empty batch returns
immediately; otherwise the batch is prepended, the buffer truncated to
`maxSignals`, and `notify` runs once.  The boolean reports whether `notify`
ran, i.e. whether subscriber callbacks were invoked. -/
def addSignals (st : SignalStoreState) (newSignals : List Signal) : SignalStoreState × Bool :=
  if newSignals.length = 0 then (st, false)
  else (⟨(newSignals ++ st.signals).take maxSignals⟩, true)

/-- C10: calling `addSignals` with an empty batch leaves the signal buffer
unchanged and invokes no subscriber callback; subscribers are notified
exactly for non-empty batches. -/
theorem C10_empty_batch_noop (st : SignalStoreState) (sigs : List Signal) :
    addSignals st [] = (st, false) ∧ ((addSignals st sigs).2 = true ↔ sigs ≠ []) := by
  constructor
  · rfl
  · unfold addSignals
    rcases sigs with _ | ⟨s, rest⟩
    · simp
    · simp

/-- Concrete signal for the C10 witness. -/
def sigW : Signal :=
  { id := "s0", symbol := "EURUSD", market := MarketType.fx, timeframe := Timeframe.H1,
    type := SignalType.macd_golden_cross, strength := 50, price := 1, time := 0,
    description := "golden cross" }

/-- Witness instantiating the C10 theorem at a concrete store state. -/
theorem C10_witness :
    addSignals ⟨[]⟩ [] = (⟨[]⟩, false) ∧
    ((addSignals ⟨[]⟩ [sigW]).2 = true ↔ [sigW] ≠ []) :=
  C10_empty_batch_noop ⟨[]⟩ [sigW]

/-- Witness instantiating the C1 theorem at a concrete bar list. -/
theorem C1_witness :
    List.Chain' (fun a b => ¬ containsBar a b ∧ ¬ containsBar b a)
      (processContainment barsC3) :=
  C1_no_adjacent_containment barsC3

/-- Witness instantiating the amended C3 theorem at a concrete input. -/
theorem C3_amended_witness :
    (runChanlun genA barsC3 MarketType.fx "EURUSD" Timeframe.H1 paramsC3).thirdBuys.map
        ThirdBuySignal.toThirdBuyData =
      (runChanlun genB barsC3 MarketType.fx "EURUSD" Timeframe.H1 paramsC3).thirdBuys.map
        ThirdBuySignal.toThirdBuyData :=
  (C3_amended_deterministic_up_to_ids genA genB barsC3 MarketType.fx "EURUSD"
    Timeframe.H1 paramsC3).2.2.2.2
